import Mathlib

/-
Verification of the nvhttp (GameStream) pairing server, src/src/nvhttp.cpp.

The model is a shallow embedding of the pairing state machine: C++ strings
and byte vectors become `String` / `List Nat`, the process-wide
`std::unordered_map<std::string, pair_session_t>` becomes an association
list with at-most-one-entry-per-key operations mirroring the container's
semantics (`emplace` does not overwrite, `erase` removes the entry with the
key), and the XML `ptree` response becomes a record of the attributes and
children the handlers write.  Crypto primitives (SHA-256, AES-ECB, RSA
sign/verify, X.509 signature-field extraction) are declared in crypto.h but
implemented outside the repository fragment, so they are abstract function
parameters gathered in `CryptoModel`; random values and the stdin-provided
PIN are explicit arguments.  Wall-clock time only enters through the OTP
expiry comparison, which is modelled by a boolean `expired` input.
Undefined behaviour in the source (dereferencing the end iterator of the
session-map lookup, or a null `cipher_key`) is modelled by the `.crash`
outcome.
-/

namespace Nvhttp

/-- ASCII bytes of a string, modelling a C++ std::string viewed as raw bytes. -/
def strBytes (s : String) : List Nat := s.data.map Char.toNat

/-- First n characters of a string, modelling a substring of ASCII data
(std::string_view of the first n bytes). -/
def takeChars (s : String) (n : Nat) : String := String.mk (s.data.take n)

/-- Modelled from the spec: value of one hex digit, case-insensitive
(utility.h's from_hex is not part of src/; the spec fixes hex to be
case-insensitive ASCII without prefix). -/
def hexVal (c : Char) : Nat :=
  if '0' ≤ c ∧ c ≤ '9' then c.toNat - 48
  else if 'a' ≤ c ∧ c ≤ 'f' then c.toNat - 87
  else if 'A' ≤ c ∧ c ≤ 'F' then c.toNat - 55
  else 0

/-- Pairs of hex digits decoded to bytes; a trailing odd digit is dropped. -/
def hexPairs : List Char → List Nat
  | c1 :: c2 :: rest => (16 * hexVal c1 + hexVal c2) :: hexPairs rest
  | _ => []

/-- Modelled from the spec: hex decoding of a query parameter
(util::from_hex_vec; utility.h is not part of src/). -/
def hexDecode (s : String) : List Nat := hexPairs s.data

/-- Lowercase hex digit for a value below 16. -/
def hexDigitChar (n : Nat) : Char :=
  if n < 10 then Char.ofNat (48 + n) else Char.ofNat (87 + n)

/-- Modelled from the spec: lowercase hex encoding of bytes on output
(util::hex_vec; utility.h is not part of src/). -/
def hexEncode (l : List Nat) : String :=
  String.mk (List.flatten (l.map (fun b => [hexDigitChar (b / 16 % 16), hexDigitChar (b % 16)])))

/-- Uppercase hex digit for a value below 16. -/
def hexDigitCharUpper (n : Nat) : Char :=
  if n < 10 then Char.ofNat (48 + n) else Char.ofNat (55 + n)

/-- Modelled from the spec: uppercase hex encoding used for the OTP hash
comparison (util::hex; utility.h is not part of src/). -/
def hexEncodeUpper (l : List Nat) : String :=
  String.mk (List.flatten (l.map (fun b => [hexDigitCharUpper (b / 16 % 16), hexDigitCharUpper (b % 16)])))

/-- Abstract interface to the crypto primitives used by nvhttp.cpp.  They are
declared in crypto.h but defined outside the repository fragment, so the model
takes them as opaque-to-the-proofs function parameters: `hash` is SHA-256 over
bytes, `signature` extracts the DER signature field of an X.509 certificate
given as bytes, `sign256`/`verify256` are RSA-SHA256 over a private key /
certificate, and `ecbEncrypt`/`ecbDecrypt` are AES-128-ECB keyed by the first
argument. -/
structure CryptoModel where
  hash : List Nat → List Nat
  signature : List Nat → List Nat
  sign256 : List Nat → List Nat → List Nat
  verify256 : List Nat → List Nat → List Nat → Bool
  ecbEncrypt : List Nat → List Nat → List Nat
  ecbDecrypt : List Nat → List Nat → List Nat

/-- Modelled from the spec: crypto::gen_aes_key (crypto.cpp is not part of
src/); the spec defines the derived AES key as the first 16 bytes of
SHA-256(salt_bytes || pin_ascii_bytes). -/
def gen_aes_key (crypto : CryptoModel) (saltBytes : List Nat) (p : String) : List Nat :=
  (crypto.hash (saltBytes ++ strBytes p)).take 16

/-- A persisted authorized client, crypto::named_cert_t. -/
structure NamedCert where
  uuid : String
  name : String
  cert : List Nat
deriving DecidableEq, Repr

/-- The client sub-record of pair_session_t. -/
structure PairClient where
  uniqueID : String := ""
  cert : List Nat := []
  name : String := ""
deriving DecidableEq, Repr

/-- pair_session_t.  `asyncSalt` is async_insert_pin.salt and
`asyncResponse` records whether async_insert_pin.response holds a live
suspended response handle. -/
structure PairSession where
  client : PairClient := {}
  cipher_key : Option (List Nat) := none
  clienthash : List Nat := []
  serversecret : List Nat := []
  serverchallenge : List Nat := []
  asyncSalt : String := ""
  asyncResponse : Bool := false
deriving DecidableEq, Repr

/-- The pairing-session map map_id_sess, keyed by uniqueid.  Association
list; the operations below mirror std::unordered_map, which holds at most
one entry per key. -/
abbrev SessMap := List (String × PairSession)

/-- unordered_map::find. -/
def mapFind : SessMap → String → Option PairSession
  | [], _ => none
  | (k, s) :: rest, k' => if k = k' then some s else mapFind rest k'

/-- Whether a key is present. -/
def mapHasKey : SessMap → String → Bool
  | [], _ => false
  | (k, _) :: rest, k' => if k = k' then true else mapHasKey rest k'

/-- unordered_map::emplace: inserts only when the key is absent (an existing
entry is kept untouched and the insertion is a no-op). -/
def mapEmplace (k : String) (v : PairSession) (m : SessMap) : SessMap :=
  if mapHasKey m k then m else m ++ [(k, v)]

/-- Mutation through the iterator returned by find/emplace: rewrites the
value stored under the key, leaving everything else in place. -/
def mapUpdate (k : String) (f : PairSession → PairSession) : SessMap → SessMap
  | [] => []
  | (k', s) :: rest => if k' = k then (k', f s) :: rest else (k', s) :: mapUpdate k f rest

/-- unordered_map::erase of the entry with the key. -/
def mapErase (k : String) : SessMap → SessMap
  | [] => []
  | (k', s) :: rest => if k' = k then rest else (k', s) :: mapErase k rest

/-- The keys of the map. -/
def mapKeys (m : SessMap) : List String := m.map Prod.fst

/-- The XML response tree: the attributes and child elements the pairing
handlers write under root.  A `none` field was never put. -/
structure XmlTree where
  statusCode : Option Nat := none
  statusMessage : Option String := none
  paired : Option Nat := none
  plaincert : Option String := none
  challengeresponse : Option String := none
  pairingsecret : Option String := none
deriving DecidableEq, Repr

/-- The OTP globals one_time_pin / otp_passphrase / otp_device_name;
`expired` models the steady_clock comparison now - otp_creation_time >
OTP_EXPIRE_DURATION at the moment the request is handled. -/
structure OtpGlobals where
  pin : String
  passphrase : String
  deviceName : String
  expired : Bool
deriving DecidableEq, Repr

/-- Clearing of the three OTP strings (the creation timestamp is untouched). -/
def otpCleared (o : OtpGlobals) : OtpGlobals :=
  { pin := "", passphrase := "", deviceName := "", expired := o.expired }

/-- The configuration bits the /pair handler consults. -/
structure PairConfig where
  enablePairing : Bool
  pinStdin : Bool
  freshState : Bool
deriving DecidableEq, Repr

/-- The query parameters of a /pair request that the handler inspects. -/
structure PairArgs where
  uniqueid : Option String := none
  phrase : Option String := none
  devicename : Option String := none
  clientcert : Option String := none
  salt : Option String := none
  otpauth : Option String := none
  clientchallenge : Option String := none
  serverchallengeresp : Option String := none
  clientpairingsecret : Option String := none
deriving DecidableEq, Repr

/-- The result of a /pair request in which the handler ran to completion:
the XML tree the fail-guard (or pin()) will serialize, the new session map,
client store and OTP globals, the contents save_state wrote (none when it
was not called), whether a response was written before returning
(`responded` is false on the async path, which retains the handle), and
whether the handler was aborted by a get_arg out_of_range exception
(`threw`; the fail-guard still serializes the tree built so far). -/
structure PairResult where
  tree : XmlTree
  map : SessMap
  store : List NamedCert
  savedFile : Option (List NamedCert)
  otp : OtpGlobals
  responded : Bool
  threw : Bool
deriving DecidableEq, Repr

/-- Outcome of a /pair request: a completed result, or undefined behaviour
(the source dereferences the end iterator of map_id_sess.find, or a null
cipher_key unique_ptr). -/
inductive PairOutcome where
  | ok (r : PairResult)
  | crash
deriving DecidableEq, Repr

/-- nvhttp.cpp lines 392-411, getservercert(sess, tree, pin): the key
derivation step.  Salt shorter than 32 characters responds 400 "Salt too
short"; otherwise the first 32 hex chars are decoded to 16 salt bytes, the
AES key is derived and stored as cipher_key, and the response is paired=1
with plaincert the hex of the server certificate PEM. -/
def getservercert (crypto : CryptoModel) (servercert : List Nat)
    (sess : PairSession) (tree : XmlTree) (p : String) : PairSession × XmlTree :=
  if sess.asyncSalt.length < 32 then
    (sess, { tree with paired := some 0, statusCode := some 400,
                       statusMessage := some "Salt too short" })
  else
    let saltBytes := hexDecode (takeChars sess.asyncSalt 32)
    let key := gen_aes_key crypto saltBytes p
    ({ sess with cipher_key := some key },
     { tree with paired := some 1, plaincert := some (hexEncode servercert),
                 statusCode := some 200 })

/-- nvhttp.cpp lines 434-468, clientchallenge(sess, tree, args), run with
the session's (non-null) cipher key; randA and randB are the two
crypto::rand(16) draws (serversecret and serverchallenge). -/
def clientchallengeFn (crypto : CryptoModel) (servercert : List Nat)
    (randA randB : List Nat) (key : List Nat) (sess : PairSession)
    (challengeHex : String) : PairSession × XmlTree :=
  let challenge := hexDecode challengeHex
  let decrypted := crypto.ecbDecrypt key challenge
  let sgn := crypto.signature servercert
  let buf := decrypted ++ sgn ++ randA
  let h := crypto.hash buf
  let plaintext := h ++ randB
  let enc := crypto.ecbEncrypt key plaintext
  ({ sess with serversecret := randA, serverchallenge := randB },
   { paired := some 1, challengeresponse := some (hexEncode enc),
     statusCode := some 200 })

/-- nvhttp.cpp lines 413-432, serverchallengeresp(sess, tree, args), run
with the session's (non-null) cipher key; pkeyBytes is the server's private
key PEM. -/
def serverchallengerespFn (crypto : CryptoModel) (pkeyBytes : List Nat)
    (key : List Nat) (sess : PairSession) (payloadHex : String) :
    PairSession × XmlTree :=
  let decrypted := crypto.ecbDecrypt key (hexDecode payloadHex)
  let sgn := crypto.sign256 pkeyBytes sess.serversecret
  ({ sess with clienthash := decrypted },
   { pairingsecret := some (hexEncode (sess.serversecret ++ sgn)),
     paired := some 1, statusCode := some 200 })

/-- The '(' to '[' and ')' to ']' substitution applied to the client name
when it is persisted (nvhttp.cpp lines 503-506). -/
def bracketSub (s : String) : String :=
  String.mk (s.data.map (fun c =>
    if c = '(' then '[' else if c = ')' then ']' else c))

/-- nvhttp.cpp lines 231-236: the name is truncated at the first
occurrence of " (" (std::string::find), the rest is dropped. -/
def truncAtParen : List Char → List Char
  | [] => []
  | c :: rest =>
    match rest with
    | [] => [c]
    | c2 :: _ => if c = ' ' ∧ c2 = '(' then [] else c :: truncAtParen rest

/-- Base name used by save_state: the display name truncated at the first
" (". -/
def stripBaseName (s : String) : String := String.mk (truncAtParen s.data)

/-- Lookup in the name_counts map (std::unordered_map operator[] defaults
to 0). -/
def lookupCount : List (String × Nat) → String → Nat
  | [], _ => 0
  | (k, v) :: rest, k' => if k = k' then v else lookupCount rest k'

/-- Post-increment of name_counts[base]. -/
def bumpCount : List (String × Nat) → String → List (String × Nat)
  | [], k' => [(k', 1)]
  | (k, v) :: rest, k' =>
    if k = k' then (k, v + 1) :: rest else (k, v) :: bumpCount rest k'

/-- The final name save_state writes: the base name, with " (count+1)"
appended when the post-incremented counter was already positive
(nvhttp.cpp lines 237-241). -/
def mkSavedName (base : String) (count : Nat) : String :=
  if count > 0 then base ++ " (" ++ toString (count + 1) ++ ")" else base

/-- nvhttp.cpp lines 225-247, the named_devices serialization loop of
save_state: entries whose certificate was already seen are skipped
(unique_certs), surviving entries keep their order and get
mkSavedName applied to their truncated base name. -/
def saveLoop (seen : List (List Nat)) (counts : List (String × Nat)) :
    List NamedCert → List NamedCert
  | [] => []
  | c :: cs =>
    if c.cert ∈ seen then saveLoop seen counts cs
    else
      let b := stripBaseName c.name
      let k := lookupCount counts b
      ⟨c.uuid, mkSavedName b k, c.cert⟩ ::
        saveLoop (c.cert :: seen) (bumpCount counts b) cs

/-- The root.named_devices list save_state writes for an in-memory client
list (nvhttp.cpp lines 205-257; the surrounding file I/O is out of model). -/
def save_state (l : List NamedCert) : List NamedCert := saveLoop [] [] l

/-- Specification-worded companion of save_state's deduplication: keep the
first entry for each distinct certificate, in order. -/
def keepFirstByCert (seen : List (List Nat)) : List NamedCert → List NamedCert
  | [] => []
  | c :: cs =>
    if c.cert ∈ seen then keepFirstByCert seen cs
    else c :: keepFirstByCert (c.cert :: seen) cs

/-- Occurrences of a string in a list. -/
def countStr : List String → String → Nat
  | [], _ => 0
  | x :: xs, b => (if x = b then 1 else 0) + countStr xs b

/-- Specification-worded companion of save_state's renaming: every entry is
renamed to its base name plus " (N)" where N-1 is the number of earlier
surviving entries with the same base name. -/
def renameByBase (prev : List String) : List NamedCert → List NamedCert
  | [] => []
  | c :: cs =>
    let b := stripBaseName c.name
    ⟨c.uuid, mkSavedName b (countStr prev b), c.cert⟩ ::
      renameByBase (b :: prev) cs

/-- nvhttp.cpp lines 327-336, add_authorized_client: append the new
certificate and, unless FRESH_STATE is set, save_state then load_state,
which re-reads exactly the named_devices list just written, so the
in-memory store becomes the saved projection.  Returns the new in-memory
store and what was written to disk. -/
def add_authorized_client (fresh : Bool) (store : List NamedCert)
    (c : NamedCert) : List NamedCert × Option (List NamedCert) :=
  let appended := store ++ [c]
  if fresh then (appended, none)
  else (save_state appended, some (save_state appended))

/-- Result of the clientpairingsecret phase (nvhttp.cpp lines 470-521),
which mutates map_id_sess and the client store. -/
structure Phase4Res where
  tree : XmlTree
  map : SessMap
  store : List NamedCert
  savedFile : Option (List NamedCert)
deriving DecidableEq, Repr

/-- nvhttp.cpp lines 470-521, clientpairingsecret(sess, tree, args):
payloads of at most 16 decoded bytes are rejected with 400; otherwise the
payload splits into secret (16 bytes) and sign, the expected hash is
SHA-256(serverchallenge || DER-signature-field(client cert) || secret), and
the pairing is accepted when memcmp of the hash against clienthash over
hash-length bytes matches and the RSA signature verifies.  On acceptance a
fresh NamedCert is appended via add_authorized_client and the session is
erased; on rejection only the session is erased. -/
def clientpairingsecretFn (crypto : CryptoModel) (fresh : Bool)
    (freshUuid : String) (m : SessMap) (store : List NamedCert)
    (sess : PairSession) (payloadHex : String) : Phase4Res :=
  let pairingsecret := hexDecode payloadHex
  if pairingsecret.length ≤ 16 then
    { tree := { paired := some 0, statusCode := some 400,
                statusMessage := some "Clientpairingsecret too short" },
      map := m, store := store, savedFile := none }
  else
    let secret := pairingsecret.take 16
    let sgn := pairingsecret.drop 16
    let x509sig := crypto.signature sess.client.cert
    let data := sess.serverchallenge ++ x509sig ++ secret
    let h := crypto.hash data
    if sess.clienthash.take h.length = h ∧
        crypto.verify256 sess.client.cert secret sgn = true then
      let nc : NamedCert := ⟨freshUuid, bracketSub sess.client.name, sess.client.cert⟩
      let m2 := mapErase sess.client.uniqueID m
      let r := add_authorized_client fresh store nc
      { tree := { paired := some 1, statusCode := some 200 },
        map := m2, store := r.1, savedFile := r.2 }
    else
      { tree := { paired := some 0, statusCode := some 200 },
        map := mapErase sess.client.uniqueID m, store := store, savedFile := none }

/-- Applies getservercert through the map at the entry for uid (the ptr
iterator in the source), returning the updated map and tree.  The entry
always exists on the phase-1 paths that call this. -/
def applyGetservercert (crypto : CryptoModel) (servercert : List Nat)
    (p uid : String) (tree : XmlTree) (m : SessMap) : SessMap × XmlTree :=
  match mapFind m uid with
  | none => (m, tree)
  | some s =>
    let r := getservercert crypto servercert s tree p
    (mapUpdate uid (fun _ => r.1) m, r.2)

/-- nvhttp.cpp lines 617-687, the phrase=getservercert branch of pair():
builds the new session, emplaces it under uniqueid (keeping any existing
entry), stores the salt through the returned iterator, then follows the
OTP / stdin / async sub-paths.  A missing devicename, clientcert or salt
makes get_arg throw out_of_range (`threw`); the fail-guard then serializes
the tree built so far, which carries no status code. -/
def phase1Fn (crypto : CryptoModel) (cfg : PairConfig) (servercert : List Nat)
    (otp : OtpGlobals) (randPin stdinPin : String) (m : SessMap)
    (store : List NamedCert) (uid : String) (a : PairArgs) : PairResult :=
  match a.devicename with
  | none =>
    { tree := {}, map := m, store := store, savedFile := none, otp := otp,
      responded := true, threw := true }
  | some dn0 =>
    let dn := if dn0 = "roth" then "Legacy Moonlight Client" else dn0
    match a.clientcert with
    | none =>
      { tree := {}, map := m, store := store, savedFile := none, otp := otp,
        responded := true, threw := true }
    | some cc =>
      let m1 := mapEmplace uid { client := { uniqueID := uid, cert := hexDecode cc, name := dn } } m
      match a.salt with
      | none =>
        { tree := {}, map := m1, store := store, savedFile := none, otp := otp,
          responded := true, threw := true }
      | some salt =>
        let m2 := mapUpdate uid (fun s => { s with asyncSalt := salt }) m1
        match a.otpauth with
        | some oa =>
          if otp.pin = "" ∨ otp.expired = true then
            let t1 : XmlTree :=
              { statusCode := some 503, statusMessage := some "OTP auth not available." }
            let r := applyGetservercert crypto servercert randPin uid t1 m2
            { tree := r.2, map := r.1, store := store, savedFile := none,
              otp := otpCleared otp, responded := true, threw := false }
          else
            let h := hexEncodeUpper (crypto.hash (strBytes (otp.pin ++ salt ++ otp.passphrase)))
            if h = oa then
              let m3 :=
                if otp.deviceName ≠ "" then
                  mapUpdate uid (fun s => { s with client := { s.client with name := otp.deviceName } }) m2
                else m2
              let r := applyGetservercert crypto servercert otp.pin uid {} m3
              { tree := r.2, map := r.1, store := store, savedFile := none,
                otp := otpCleared otp, responded := true, threw := false }
            else
              let r := applyGetservercert crypto servercert randPin uid {} m2
              { tree := r.2, map := r.1, store := store, savedFile := none,
                otp := otp, responded := true, threw := false }
        | none =>
          if cfg.pinStdin then
            let r := applyGetservercert crypto servercert stdinPin uid {} m2
            { tree := r.2, map := r.1, store := store, savedFile := none,
              otp := otp, responded := true, threw := false }
          else
            { tree := {},
              map := mapUpdate uid (fun s => { s with asyncResponse := true }) m2,
              store := store, savedFile := none, otp := otp,
              responded := false, threw := false }

/-- nvhttp.cpp lines 584-706, the /pair dispatcher: pairing-disabled and
missing-uniqueid guards, then the phrase branch, then clientchallenge,
serverchallengeresp and clientpairingsecret (each dereferencing the
find result, and the first two the null cipher_key, without a check:
`.crash`), else 404 "Invalid pairing request".  A phrase value other than
getservercert / pairchallenge leaves the tree empty. -/
def pair (crypto : CryptoModel) (cfg : PairConfig)
    (servercert pkeyBytes : List Nat) (otp : OtpGlobals)
    (randPin stdinPin freshUuid : String) (randA randB : List Nat)
    (m : SessMap) (store : List NamedCert) (a : PairArgs) : PairOutcome :=
  if cfg.enablePairing = false then
    .ok { tree := { statusCode := some 403,
                    statusMessage := some "Pairing is disabled for this instance" },
          map := m, store := store, savedFile := none, otp := otp,
          responded := true, threw := false }
  else
    match a.uniqueid with
    | none =>
      .ok { tree := { statusCode := some 400,
                      statusMessage := some "Missing uniqueid parameter" },
            map := m, store := store, savedFile := none, otp := otp,
            responded := true, threw := false }
    | some uid =>
      match a.phrase with
      | some ph =>
        if ph = "getservercert" then
          .ok (phase1Fn crypto cfg servercert otp randPin stdinPin m store uid a)
        else if ph = "pairchallenge" then
          .ok { tree := { paired := some 1, statusCode := some 200 },
                map := m, store := store, savedFile := none, otp := otp,
                responded := true, threw := false }
        else
          .ok { tree := {}, map := m, store := store, savedFile := none,
                otp := otp, responded := true, threw := false }
      | none =>
        match a.clientchallenge with
        | some ch =>
          match mapFind m uid with
          | none => .crash
          | some s =>
            match s.cipher_key with
            | none => .crash
            | some key =>
              let r := clientchallengeFn crypto servercert randA randB key s ch
              .ok { tree := r.2, map := mapUpdate uid (fun _ => r.1) m,
                    store := store, savedFile := none, otp := otp,
                    responded := true, threw := false }
        | none =>
          match a.serverchallengeresp with
          | some scr =>
            match mapFind m uid with
            | none => .crash
            | some s =>
              match s.cipher_key with
              | none => .crash
              | some key =>
                let r := serverchallengerespFn crypto pkeyBytes key s scr
                .ok { tree := r.2, map := mapUpdate uid (fun _ => r.1) m,
                      store := store, savedFile := none, otp := otp,
                      responded := true, threw := false }
          | none =>
            match a.clientpairingsecret with
            | some cps =>
              match mapFind m uid with
              | none => .crash
              | some s =>
                let r := clientpairingsecretFn crypto cfg.freshState freshUuid m store s cps
                .ok { tree := r.tree, map := r.map, store := r.store,
                      savedFile := r.savedFile, otp := otp,
                      responded := true, threw := false }
            | none =>
              .ok { tree := { statusCode := some 404,
                              statusMessage := some "Invalid pairing request" },
                    map := m, store := store, savedFile := none, otp := otp,
                    responded := true, threw := false }

/-- Result of a pin() call: the returned bool, the new session map, and the
XML written to the suspended response handle (none when nothing was
written). -/
structure PinResult where
  ok : Bool
  map : SessMap
  written : Option XmlTree
deriving DecidableEq, Repr

/-- The first session after pin()'s mutations: the key-derivation step of
getservercert followed by the name replacement when name is non-empty
(nvhttp.cpp lines 732-737). -/
def pinSess (crypto : CryptoModel) (servercert : List Nat) (p nm : String)
    (sess : PairSession) : PairSession :=
  let gs := getservercert crypto servercert sess {} p
  if nm ≠ "" then { gs.1 with client := { gs.1.client with name := nm } } else gs.1

/-- nvhttp.cpp lines 708-758, pin(pin, name): false on an empty map, a pin
that is not 4 characters, or a non-decimal pin; otherwise runs
getservercert on the first session with the provided pin, replaces the
client name when name is non-empty, and writes the tree to the suspended
response handle when one is held (clearing it and returning true), else
returns false with the mutations kept. -/
def pin (crypto : CryptoModel) (servercert : List Nat) (p nm : String)
    (m : SessMap) : PinResult :=
  match m with
  | [] => ⟨false, [], none⟩
  | (k, sess) :: rest =>
    if p.length ≠ 4 then ⟨false, (k, sess) :: rest, none⟩
    else if (p.data.all Char.isDigit) = false then ⟨false, (k, sess) :: rest, none⟩
    else
      let gs := getservercert crypto servercert sess {} p
      let sess2 := pinSess crypto servercert p nm sess
      if sess2.asyncResponse then
        ⟨true, (k, { sess2 with asyncResponse := false }) :: rest, some gs.2⟩
      else
        ⟨false, (k, sess2) :: rest, none⟩

/-- The serverinfo fields the claims speak about (nvhttp.cpp lines
760-872): the MAC, the ServerCommand children, PairStatus, LocalIP and the
state string, as a function of the transport (HTTPS or plain HTTP), whether
uniqueid is in the query, the real MAC of the local address, the configured
server commands, whether the local endpoint is a non-v4-mapped IPv6
address, the local address string, and the running app id. -/
structure ServerInfo where
  mac : String
  serverCommands : List String
  pairStatus : Nat
  localIP : String
  state : String
deriving DecidableEq, Repr

/-- nvhttp.cpp lines 760-872, serverinfo<T>: over HTTP the MAC is the
placeholder and no ServerCommand children are emitted; over HTTPS the real
MAC and all configured commands are emitted unconditionally.  PairStatus is
1 exactly when the request is HTTPS and carries uniqueid. -/
def serverinfo (isHttps hasUniqueid : Bool) (realMac : String)
    (cmds : List String) (v6NonMapped : Bool) (localAddr : String)
    (runningApp : Nat) : ServerInfo :=
  { mac := if isHttps then realMac else "00:00:00:00:00:00"
    serverCommands := if isHttps then cmds else []
    pairStatus := if isHttps && hasUniqueid then 1 else 0
    localIP := if v6NonMapped then "127.0.0.1" else localAddr
    state := if runningApp > 0 then "SUNSHINE_SERVER_BUSY" else "SUNSHINE_SERVER_FREE" }

/-- The tree of a completed /pair outcome (empty on crash). -/
def outcomeTree : PairOutcome → XmlTree
  | .ok r => r.tree
  | .crash => {}

/-- The session map of a completed /pair outcome (empty on crash). -/
def outcomeMap : PairOutcome → SessMap
  | .ok r => r.map
  | .crash => []

/-- The OTP globals of a completed /pair outcome. -/
def outcomeOtp : PairOutcome → OtpGlobals
  | .ok r => r.otp
  | .crash => { pin := "", passphrase := "", deviceName := "", expired := false }

/-- A concrete crypto instantiation used to evaluate the model on closed
inputs: SHA-256 is replaced by a constant 32-byte digest, signing returns
the empty string, verification accepts, and ECB is the identity. -/
def cryptoZero : CryptoModel :=
  { hash := fun _ => List.replicate 32 0
    signature := fun _ => []
    sign256 := fun _ _ => []
    verify256 := fun _ _ _ => true
    ecbEncrypt := fun _ x => x
    ecbDecrypt := fun _ x => x }

/-- A 32-character hex salt. -/
def salt32 : String := "00000000000000000000000000000000"

/-- No OTP registered. -/
def otpNone : OtpGlobals := { pin := "", passphrase := "", deviceName := "", expired := false }

/-- A registered OTP that is older than OTP_EXPIRE_DURATION. -/
def otpStale : OtpGlobals := { pin := "9999", passphrase := "pass", deviceName := "dev", expired := true }

/-- Pairing enabled, PIN_STDIN set. -/
def cfgStdin : PairConfig := { enablePairing := true, pinStdin := true, freshState := false }

/-- Pairing enabled, async PIN path. -/
def cfgAsync : PairConfig := { enablePairing := true, pinStdin := false, freshState := false }

/-- First getservercert request of the repeated-uniqueid scenario. -/
def argsFirst : PairArgs :=
  { uniqueid := some "u", phrase := some "getservercert", devicename := some "A",
    clientcert := some "aa", salt := some salt32 }

/-- Second getservercert request with the same uniqueid but a different
client certificate and name. -/
def argsSecond : PairArgs :=
  { uniqueid := some "u", phrase := some "getservercert", devicename := some "B",
    clientcert := some "bb", salt := some salt32 }

/-- A getservercert request whose salt is shorter than 32 characters. -/
def argsShortSalt : PairArgs :=
  { uniqueid := some "u", phrase := some "getservercert", devicename := some "A",
    clientcert := some "aa", salt := some "00" }

/-- A getservercert request carrying otpauth. -/
def argsOtpStale : PairArgs :=
  { uniqueid := some "c1", phrase := some "getservercert", devicename := some "dev",
    clientcert := some "aa", salt := some salt32, otpauth := some "ff" }

/-- A clientchallenge request for a uniqueid with no session. -/
def argsChalGhost : PairArgs :=
  { uniqueid := some "ghost", clientchallenge := some "00" }

/-- A clientchallenge request for a session without a derived cipher key. -/
def argsChalNoKey : PairArgs :=
  { uniqueid := some "g", clientchallenge := some "00" }

/-- A pending session with no cipher key yet. -/
def sessNoKey : PairSession := { client := { uniqueID := "g", cert := [], name := "n" } }

/-- A phase-4 session whose stored clienthash is 48 bytes long, the first
32 of which equal the constant digest of cryptoZero. -/
def sessLongHash : PairSession :=
  { client := { uniqueID := "u", cert := [], name := "nm" },
    clienthash := List.replicate 48 0 }

/-- A phase-4 session whose stored clienthash is exactly the 32-byte
digest of cryptoZero. -/
def sessExactHash : PairSession :=
  { client := { uniqueID := "u", cert := [], name := "nm" },
    clienthash := List.replicate 32 0 }

/-- A 17-byte clientpairingsecret payload (34 hex characters). -/
def payload17 : String := "0000000000000000000000000000000000"

/-- A suspended async session (response handle held). -/
def sessSuspended : PairSession :=
  { client := { uniqueID := "u", cert := [], name := "old" },
    asyncSalt := salt32, asyncResponse := true }

/-- A session with no suspended response handle. -/
def sessNoHandle : PairSession :=
  { client := { uniqueID := "u", cert := [], name := "old" },
    asyncSalt := salt32, asyncResponse := false }

theorem getservercert_fst_client (crypto : CryptoModel) (sc : List Nat)
    (s : PairSession) (t : XmlTree) (p : String) :
    (getservercert crypto sc s t p).1.client = s.client := by
  unfold getservercert; split <;> rfl

theorem getservercert_fst_asyncSalt (crypto : CryptoModel) (sc : List Nat)
    (s : PairSession) (t : XmlTree) (p : String) :
    (getservercert crypto sc s t p).1.asyncSalt = s.asyncSalt := by
  unfold getservercert; split <;> rfl

theorem getservercert_fst_asyncResponse (crypto : CryptoModel) (sc : List Nat)
    (s : PairSession) (t : XmlTree) (p : String) :
    (getservercert crypto sc s t p).1.asyncResponse = s.asyncResponse := by
  unfold getservercert; split <;> rfl

theorem getservercert_fst_clienthash (crypto : CryptoModel) (sc : List Nat)
    (s : PairSession) (t : XmlTree) (p : String) :
    (getservercert crypto sc s t p).1.clienthash = s.clienthash := by
  unfold getservercert; split <;> rfl

theorem getservercert_fst_serversecret (crypto : CryptoModel) (sc : List Nat)
    (s : PairSession) (t : XmlTree) (p : String) :
    (getservercert crypto sc s t p).1.serversecret = s.serversecret := by
  unfold getservercert; split <;> rfl

theorem getservercert_fst_serverchallenge (crypto : CryptoModel) (sc : List Nat)
    (s : PairSession) (t : XmlTree) (p : String) :
    (getservercert crypto sc s t p).1.serverchallenge = s.serverchallenge := by
  unfold getservercert; split <;> rfl

theorem getservercert_fst_cipher_key (crypto : CryptoModel) (sc : List Nat)
    (s : PairSession) (t : XmlTree) (p : String) :
    (getservercert crypto sc s t p).1.cipher_key =
      (if 32 ≤ s.asyncSalt.length then
        some (gen_aes_key crypto (hexDecode (takeChars s.asyncSalt 32)) p)
       else s.cipher_key) := by
  unfold getservercert
  by_cases h : s.asyncSalt.length < 32
  · rw [if_pos h, if_neg (by omega)]
  · rw [if_neg h, if_pos (by omega)]

theorem mapFind_update_self (k : String) (f : PairSession → PairSession) (m : SessMap) :
    mapFind (mapUpdate k f m) k = Option.map f (mapFind m k) := by
  induction m with
  | nil => rfl
  | cons p rest ih =>
    obtain ⟨k', s⟩ := p
    by_cases h : k' = k
    · simp [mapUpdate, mapFind, h]
    · simp [mapUpdate, mapFind, h, ih]

theorem mapHasKey_isSome (m : SessMap) (k : String) :
    mapHasKey m k = (mapFind m k).isSome := by
  induction m with
  | nil => rfl
  | cons p rest ih =>
    obtain ⟨k', s⟩ := p
    by_cases h : k' = k
    · simp [mapHasKey, mapFind, h]
    · simp [mapHasKey, mapFind, h, ih]

theorem mapEmplace_of_find_some (k : String) (v s : PairSession) (m : SessMap)
    (h : mapFind m k = some s) : mapEmplace k v m = m := by
  unfold mapEmplace
  rw [mapHasKey_isSome, h]
  rfl

theorem mapFind_append_of_none (m l : SessMap) (k : String)
    (h : mapFind m k = none) : mapFind (m ++ l) k = mapFind l k := by
  induction m with
  | nil => rfl
  | cons p rest ih =>
    obtain ⟨k', s⟩ := p
    by_cases hk : k' = k
    · simp [mapFind, hk] at h
    · simp [mapFind, hk] at h ⊢
      exact ih h

theorem mapFind_emplace_of_none (k : String) (v : PairSession) (m : SessMap)
    (h : mapFind m k = none) : mapFind (mapEmplace k v m) k = some v := by
  unfold mapEmplace
  rw [mapHasKey_isSome, h]
  simp [mapFind_append_of_none m [(k, v)] k h, mapFind]

theorem mapKeys_update (k : String) (f : PairSession → PairSession) (m : SessMap) :
    mapKeys (mapUpdate k f m) = mapKeys m := by
  induction m with
  | nil => rfl
  | cons p rest ih =>
    obtain ⟨k', s⟩ := p
    by_cases h : k' = k
    · simp [mapUpdate, mapKeys, h]
    · simp only [mapUpdate, mapKeys, if_neg h, List.map_cons]
      simpa [mapKeys] using ih

theorem not_mem_keys_of_hasKey_false (m : SessMap) (k : String)
    (h : mapHasKey m k = false) : k ∉ mapKeys m := by
  induction m with
  | nil => simp [mapKeys]
  | cons p rest ih =>
    obtain ⟨k', s⟩ := p
    by_cases hk : k' = k
    · simp [mapHasKey, hk] at h
    · simp only [mapHasKey, if_neg hk] at h
      simp only [mapKeys, List.map_cons, List.mem_cons]
      rintro (h1 | h2)
      · exact hk h1.symm
      · exact ih h h2

theorem nodup_keys_emplace (k : String) (v : PairSession) (m : SessMap)
    (h : (mapKeys m).Nodup) : (mapKeys (mapEmplace k v m)).Nodup := by
  unfold mapEmplace
  by_cases hk : mapHasKey m k
  · rwa [if_pos hk]
  · rw [if_neg hk]
    have hnot : k ∉ mapKeys m :=
      not_mem_keys_of_hasKey_false m k (by simpa using hk)
    simp only [mapKeys, List.map_append, List.map_cons, List.map_nil]
    rw [List.nodup_append]
    refine ⟨h, List.nodup_singleton k, ?_⟩
    intro x hx hx'
    simp at hx'
    subst hx'
    exact hnot hx

theorem keys_erase_sublist (k : String) (m : SessMap) :
    List.Sublist (mapKeys (mapErase k m)) (mapKeys m) := by
  induction m with
  | nil => simp [mapErase, mapKeys]
  | cons p rest ih =>
    obtain ⟨k', s⟩ := p
    by_cases h : k' = k
    · simp only [mapErase, if_pos h]
      exact (List.sublist_cons_self k' (mapKeys rest))
    · simp only [mapErase, if_neg h, mapKeys, List.map_cons]
      exact List.Sublist.cons₂ k' ih

theorem nodup_keys_erase (k : String) (m : SessMap)
    (h : (mapKeys m).Nodup) : (mapKeys (mapErase k m)).Nodup :=
  List.Nodup.sublist (keys_erase_sublist k m) h

theorem mapKeys_applyGetservercert (crypto : CryptoModel) (sc : List Nat)
    (p uid : String) (t : XmlTree) (m : SessMap) :
    mapKeys (applyGetservercert crypto sc p uid t m).1 = mapKeys m := by
  unfold applyGetservercert
  cases mapFind m uid with
  | none => rfl
  | some s => simp [mapKeys_update]

theorem lookupCount_bump (cs : List (String × Nat)) (b b' : String) :
    lookupCount (bumpCount cs b) b' =
      if b = b' then lookupCount cs b' + 1 else lookupCount cs b' := by
  induction cs with
  | nil =>
    by_cases h : b = b' <;> simp [bumpCount, lookupCount, h]
  | cons p rest ih =>
    obtain ⟨k, v⟩ := p
    by_cases hk : k = b
    · subst hk
      by_cases hb : k = b' <;> simp [bumpCount, lookupCount, hb]
    · by_cases hb : k = b'
      · subst hb
        rw [if_neg (fun hbk => hk hbk.symm)]
        simp [bumpCount, lookupCount, hk]
      · simp [bumpCount, lookupCount, hk, hb, ih]

theorem saveLoop_spec (l : List NamedCert) :
    ∀ (seen : List (List Nat)) (cs : List (String × Nat)) (prev : List String),
      (∀ b, lookupCount cs b = countStr prev b) →
      saveLoop seen cs l = renameByBase prev (keepFirstByCert seen l) := by
  induction l with
  | nil => intro seen cs prev _; rfl
  | cons c rest ih =>
    intro seen cs prev h
    by_cases hm : c.cert ∈ seen
    · simp only [saveLoop, keepFirstByCert, if_pos hm]
      exact ih seen cs prev h
    · simp only [saveLoop, keepFirstByCert, if_neg hm, renameByBase]
      rw [h (stripBaseName c.name)]
      refine congrArg _ ?_
      refine ih _ _ _ ?_
      intro b'
      rw [lookupCount_bump]
      by_cases hb : stripBaseName c.name = b'
      · rw [if_pos hb, h b', countStr, if_pos hb]
        omega
      · rw [if_neg hb, h b', countStr, if_neg hb]
        omega

theorem pinSess_asyncResponse (crypto : CryptoModel) (sc : List Nat)
    (p nm : String) (s : PairSession) :
    (pinSess crypto sc p nm s).asyncResponse = s.asyncResponse := by
  unfold pinSess
  split <;> simp [getservercert_fst_asyncResponse]

theorem pinSess_cipher_key (crypto : CryptoModel) (sc : List Nat)
    (p nm : String) (s : PairSession) :
    (pinSess crypto sc p nm s).cipher_key =
      (getservercert crypto sc s {} p).1.cipher_key := by
  unfold pinSess
  split <;> rfl

theorem pinSess_client_name (crypto : CryptoModel) (sc : List Nat)
    (p nm : String) (s : PairSession) :
    (pinSess crypto sc p nm s).client.name =
      (if nm = "" then s.client.name else nm) := by
  unfold pinSess
  by_cases h : nm = ""
  · simp [h, getservercert_fst_client]
  · simp [h]

theorem pinSess_client_uniqueID (crypto : CryptoModel) (sc : List Nat)
    (p nm : String) (s : PairSession) :
    (pinSess crypto sc p nm s).client.uniqueID = s.client.uniqueID := by
  unfold pinSess
  split <;> simp [getservercert_fst_client]

theorem pinSess_client_cert (crypto : CryptoModel) (sc : List Nat)
    (p nm : String) (s : PairSession) :
    (pinSess crypto sc p nm s).client.cert = s.client.cert := by
  unfold pinSess
  split <;> simp [getservercert_fst_client]

theorem pinSess_asyncSalt (crypto : CryptoModel) (sc : List Nat)
    (p nm : String) (s : PairSession) :
    (pinSess crypto sc p nm s).asyncSalt = s.asyncSalt := by
  unfold pinSess
  split <;> simp [getservercert_fst_asyncSalt]

theorem pinSess_clienthash (crypto : CryptoModel) (sc : List Nat)
    (p nm : String) (s : PairSession) :
    (pinSess crypto sc p nm s).clienthash = s.clienthash := by
  unfold pinSess
  split <;> simp [getservercert_fst_clienthash]

theorem pinSess_serversecret (crypto : CryptoModel) (sc : List Nat)
    (p nm : String) (s : PairSession) :
    (pinSess crypto sc p nm s).serversecret = s.serversecret := by
  unfold pinSess
  split <;> simp [getservercert_fst_serversecret]

theorem pinSess_serverchallenge (crypto : CryptoModel) (sc : List Nat)
    (p nm : String) (s : PairSession) :
    (pinSess crypto sc p nm s).serverchallenge = s.serverchallenge := by
  unfold pinSess
  split <;> simp [getservercert_fst_serverchallenge]

theorem pin_valid_eq (crypto : CryptoModel) (sc : List Nat) (p nm k : String)
    (s : PairSession) (rest : SessMap) (hp : p.length = 4)
    (hd : (p.data.all Char.isDigit) = true) :
    pin crypto sc p nm ((k, s) :: rest) =
      (if s.asyncResponse = true then
        PinResult.mk true
          ((k, { pinSess crypto sc p nm s with asyncResponse := false }) :: rest)
          (some (getservercert crypto sc s {} p).2)
       else PinResult.mk false ((k, pinSess crypto sc p nm s) :: rest) none) := by
  have h1 : ¬(p.length ≠ 4) := by simp [hp]
  have h2 : ¬((p.data.all Char.isDigit) = false) := by simp [hd]
  simp only [pin]
  rw [if_neg h1, if_neg h2]
  rw [pinSess_asyncResponse]

/-- C3: for every getservercert session whose salt has at least 32
characters and every PIN string, the key-derivation step stores cipher_key
= first-16-bytes(SHA-256(hex-decode(first 32 chars of salt) || ASCII bytes
of the PIN)) and responds paired=1, plaincert = hex of the server
certificate PEM, status 200; and the stored key is a deterministic
function of the salt and the PIN alone. -/
theorem getservercert_key_derivation (crypto : CryptoModel) (sc : List Nat)
    (s : PairSession) (t : XmlTree) (p : String)
    (h : 32 ≤ s.asyncSalt.length) :
    getservercert crypto sc s t p =
      ({ s with
         cipher_key := some ((crypto.hash (hexDecode (takeChars s.asyncSalt 32) ++ strBytes p)).take 16) },
       { t with paired := some 1, plaincert := some (hexEncode sc),
                statusCode := some 200 }) ∧
    (∀ s2 t2, s2.asyncSalt = s.asyncSalt →
      (getservercert crypto sc s2 t2 p).1.cipher_key =
        (getservercert crypto sc s t p).1.cipher_key) := by
  constructor
  · unfold getservercert
    rw [if_neg (by omega)]
    rfl
  · intro s2 t2 hsalt
    rw [getservercert_fst_cipher_key, getservercert_fst_cipher_key, hsalt,
      if_pos h, if_pos h]

theorem getservercert_key_derivation_witness :
    getservercert cryptoZero [] { asyncSalt := salt32 } {} "1234" =
      ({ asyncSalt := salt32,
         cipher_key := some ((cryptoZero.hash (hexDecode (takeChars salt32 32) ++ strBytes "1234")).take 16) },
       { paired := some 1, plaincert := some (hexEncode []), statusCode := some 200 }) :=
  (getservercert_key_derivation cryptoZero [] { asyncSalt := salt32 } {} "1234" (by decide)).1

/-- C7: pin(p, name) returns false on an empty map, a pin that is not 4
characters, or a non-decimal pin; otherwise it runs the key-derivation
step on the first session in the map with PIN p, replaces that session's
client name when name is non-empty, clears the suspended response handle,
writes the resulting XML exactly when a handle was held, and returns true
if and only if a response was actually written. -/
theorem pin_contract (crypto : CryptoModel) (sc : List Nat) :
    (∀ p nm, pin crypto sc p nm [] = ⟨false, [], none⟩) ∧
    (∀ p nm m, p.length ≠ 4 → pin crypto sc p nm m = ⟨false, m, none⟩) ∧
    (∀ p nm m, (p.data.all Char.isDigit) = false → pin crypto sc p nm m = ⟨false, m, none⟩) ∧
    (∀ p nm k s rest, p.length = 4 → (p.data.all Char.isDigit) = true →
      ((pin crypto sc p nm ((k, s) :: rest)).ok = s.asyncResponse) ∧
      ((pin crypto sc p nm ((k, s) :: rest)).written =
        (if s.asyncResponse = true then some (getservercert crypto sc s {} p).2 else none)) ∧
      (∃ s2, (pin crypto sc p nm ((k, s) :: rest)).map = (k, s2) :: rest ∧
        s2.client.name = (if nm = "" then s.client.name else nm) ∧
        s2.client.uniqueID = s.client.uniqueID ∧
        s2.client.cert = s.client.cert ∧
        s2.cipher_key = (getservercert crypto sc s {} p).1.cipher_key ∧
        s2.asyncResponse = false ∧
        s2.asyncSalt = s.asyncSalt ∧
        s2.clienthash = s.clienthash ∧
        s2.serversecret = s.serversecret ∧
        s2.serverchallenge = s.serverchallenge)) := by
  refine ⟨fun p nm => rfl, ?_, ?_, ?_⟩
  · intro p nm m hp
    cases m with
    | nil => rfl
    | cons q rest =>
      obtain ⟨k, s⟩ := q
      simp only [pin]
      rw [if_pos hp]
  · intro p nm m hd
    cases m with
    | nil => rfl
    | cons q rest =>
      obtain ⟨k, s⟩ := q
      by_cases hp : p.length ≠ 4
      · simp only [pin]
        rw [if_pos hp]
      · simp only [pin]
        rw [if_neg hp, if_pos hd]
  · intro p nm k s rest hp hd
    have heq := pin_valid_eq crypto sc p nm k s rest hp hd
    by_cases hA : s.asyncResponse = true
    · rw [if_pos hA] at heq
      rw [heq, hA]
      refine ⟨rfl, ?_, ?_⟩
      · rw [if_pos rfl]
      · exact ⟨{ pinSess crypto sc p nm s with asyncResponse := false }, rfl,
          pinSess_client_name crypto sc p nm s,
          pinSess_client_uniqueID crypto sc p nm s,
          pinSess_client_cert crypto sc p nm s,
          pinSess_cipher_key crypto sc p nm s,
          rfl,
          pinSess_asyncSalt crypto sc p nm s,
          pinSess_clienthash crypto sc p nm s,
          pinSess_serversecret crypto sc p nm s,
          pinSess_serverchallenge crypto sc p nm s⟩
    · have hA' : s.asyncResponse = false := by
        revert hA; cases s.asyncResponse <;> simp
      rw [if_neg hA] at heq
      rw [heq, hA']
      refine ⟨rfl, ?_, ?_⟩
      · rw [if_neg Bool.false_ne_true]
      · exact ⟨pinSess crypto sc p nm s, rfl,
          pinSess_client_name crypto sc p nm s,
          pinSess_client_uniqueID crypto sc p nm s,
          pinSess_client_cert crypto sc p nm s,
          pinSess_cipher_key crypto sc p nm s,
          (pinSess_asyncResponse crypto sc p nm s).trans hA',
          pinSess_asyncSalt crypto sc p nm s,
          pinSess_clienthash crypto sc p nm s,
          pinSess_serversecret crypto sc p nm s,
          pinSess_serverchallenge crypto sc p nm s⟩

theorem pin_contract_witness :
    (pin cryptoZero [] "1234" "new" [("u", sessSuspended)]).ok = sessSuspended.asyncResponse ∧
    (∃ s2, (pin cryptoZero [] "1234" "new" [("u", sessSuspended)]).map = [("u", s2)] ∧
      s2.client.name = (if ("new" : String) = "" then sessSuspended.client.name else "new")) := by
  have h := (pin_contract cryptoZero []).2.2.2 "1234" "new" "u" sessSuspended []
    (by decide) (by decide)
  exact ⟨h.1, h.2.2.elim (fun s2 hs => ⟨s2, hs.1, hs.2.1⟩)⟩

/-- C10: when the map is non-empty and the pin is a 4-digit decimal string
but the first session holds no suspended response handle, pin() returns
false even though it has already re-derived that session's cipher key and
overwritten its client name; a false return does not imply the session is
unchanged. -/
theorem pin_false_return_still_mutates (crypto : CryptoModel) (sc : List Nat)
    (p nm k : String) (s : PairSession) (rest : SessMap)
    (hp : p.length = 4) (hd : (p.data.all Char.isDigit) = true)
    (hA : s.asyncResponse = false) :
    (pin crypto sc p nm ((k, s) :: rest)).ok = false ∧
    (pin crypto sc p nm ((k, s) :: rest)).map = (k, pinSess crypto sc p nm s) :: rest ∧
    (32 ≤ s.asyncSalt.length →
      (pinSess crypto sc p nm s).cipher_key =
        some (gen_aes_key crypto (hexDecode (takeChars s.asyncSalt 32)) p)) ∧
    (nm ≠ "" → (pinSess crypto sc p nm s).client.name = nm) := by
  have hA' : ¬ (s.asyncResponse = true) := by simp [hA]
  have heq := pin_valid_eq crypto sc p nm k s rest hp hd
  rw [if_neg hA'] at heq
  rw [heq]
  refine ⟨rfl, rfl, ?_, ?_⟩
  · intro hsalt
    rw [pinSess_cipher_key, getservercert_fst_cipher_key, if_pos hsalt]
  · intro hnm
    rw [pinSess_client_name, if_neg hnm]

theorem pin_false_return_still_mutates_witness :
    (pin cryptoZero [] "1234" "new" [("u", sessNoHandle)]).ok = false ∧
    (pin cryptoZero [] "1234" "new" [("u", sessNoHandle)]).map =
      [("u", pinSess cryptoZero [] "1234" "new" sessNoHandle)] ∧
    (32 ≤ sessNoHandle.asyncSalt.length →
      (pinSess cryptoZero [] "1234" "new" sessNoHandle).cipher_key =
        some (gen_aes_key cryptoZero (hexDecode (takeChars sessNoHandle.asyncSalt 32)) "1234")) ∧
    (("new" : String) ≠ "" →
      (pinSess cryptoZero [] "1234" "new" sessNoHandle).client.name = "new") :=
  pin_false_return_still_mutates cryptoZero [] "1234" "new" "u" sessNoHandle []
    (by decide) (by decide) (by rfl)

/-- C8 (counterexample): a store with a single entry named "John (PC)" has
no name collision, yet save_state writes it back renamed to "John"; the
claim that only colliding names are rewritten fails. -/
theorem save_state_renames_without_collision :
    save_state [⟨"u1", "John (PC)", [1]⟩] = [⟨"u1", "John", [1]⟩] ∧
      ("John" : String) ≠ "John (PC)" := by
  constructor
  · decide
  · decide

/-- C8 (amended): save_state writes at most one entry per distinct
certificate (first occurrence wins) preserving insertion order, truncates
every surviving name at its first " (" occurrence to obtain the base name,
and appends " (N)", N = 2, 3, ... in insertion order, to the second and
later surviving entries sharing a base name — this is the composition of
the first-wins filter and the positional renaming. -/
theorem save_state_refinement (l : List NamedCert) :
    save_state l = renameByBase [] (keepFirstByCert [] l) :=
  saveLoop_spec l [] [] [] (fun _ => rfl)

/-- C9 (counterexample): an HTTPS serverinfo request without uniqueid
still receives the real MAC address and the configured ServerCommand
list, contradicting the claim that they are exposed exactly when the
query contains uniqueid. -/
theorem serverinfo_exposes_without_uniqueid :
    (serverinfo true false "aa:bb:cc:dd:ee:ff" ["restart"] false "192.168.0.2" 0).mac
        = "aa:bb:cc:dd:ee:ff" ∧
    (serverinfo true false "aa:bb:cc:dd:ee:ff" ["restart"] false "192.168.0.2" 0).serverCommands
        = ["restart"] ∧
    ("aa:bb:cc:dd:ee:ff" : String) ≠ "00:00:00:00:00:00" :=
  ⟨rfl, rfl, by decide⟩

/-- C9 (amended): plaintext HTTP serverinfo reports the placeholder MAC
and no ServerCommand children; HTTPS serverinfo always reports the real
MAC and all configured ServerCommand entries, regardless of uniqueid; and
PairStatus is 1 iff the request is HTTPS and carries uniqueid, else 0. -/
theorem serverinfo_exposure (hu v6 : Bool) (mac la : String)
    (cmds : List String) (app : Nat) :
    (serverinfo false hu mac cmds v6 la app).mac = "00:00:00:00:00:00" ∧
    (serverinfo false hu mac cmds v6 la app).serverCommands = [] ∧
    (serverinfo true hu mac cmds v6 la app).mac = mac ∧
    (serverinfo true hu mac cmds v6 la app).serverCommands = cmds ∧
    (∀ https : Bool, (serverinfo https hu mac cmds v6 la app).pairStatus =
      (if https && hu then 1 else 0)) :=
  ⟨rfl, rfl, rfl, rfl, fun _ => rfl⟩

theorem mapFind_emplace (k : String) (v : PairSession) (m : SessMap) :
    mapFind (mapEmplace k v m) k = some ((mapFind m k).getD v) := by
  cases hf : mapFind m k with
  | none => rw [mapFind_emplace_of_none k v m hf]; rfl
  | some s => rw [mapEmplace_of_find_some k v s m hf, hf]; rfl

theorem phase1Fn_keys_nodup (crypto : CryptoModel) (cfg : PairConfig)
    (sc : List Nat) (otp : OtpGlobals) (rp sp : String) (m : SessMap)
    (store : List NamedCert) (uid : String) (a : PairArgs)
    (h : (mapKeys m).Nodup) :
    (mapKeys (phase1Fn crypto cfg sc otp rp sp m store uid a).map).Nodup := by
  have key1 : ∀ (t : XmlTree) (p : String) (f : PairSession → PairSession) (v : PairSession),
      (mapKeys (applyGetservercert crypto sc p uid t (mapUpdate uid f (mapEmplace uid v m))).1).Nodup := by
    intro t p f v
    rw [mapKeys_applyGetservercert, mapKeys_update]
    exact nodup_keys_emplace _ _ _ h
  have key2 : ∀ (t : XmlTree) (p : String) (f g : PairSession → PairSession) (v : PairSession),
      (mapKeys (applyGetservercert crypto sc p uid t
        (mapUpdate uid g (mapUpdate uid f (mapEmplace uid v m)))).1).Nodup := by
    intro t p f g v
    rw [mapKeys_applyGetservercert, mapKeys_update, mapKeys_update]
    exact nodup_keys_emplace _ _ _ h
  have key3 : ∀ (f g : PairSession → PairSession) (v : PairSession),
      (mapKeys (mapUpdate uid g (mapUpdate uid f (mapEmplace uid v m)))).Nodup := by
    intro f g v
    rw [mapKeys_update, mapKeys_update]
    exact nodup_keys_emplace _ _ _ h
  obtain ⟨uq, ph, dev, cc, salt, oa, ch, scr, cps⟩ := a
  cases dev with
  | none => exact h
  | some dn0 =>
    cases cc with
    | none => exact h
    | some ccv =>
      cases salt with
      | none => exact nodup_keys_emplace _ _ _ h
      | some sv =>
        cases oa with
        | some oav =>
          simp only [phase1Fn]
          by_cases hotp : otp.pin = "" ∨ otp.expired = true
          · rw [if_pos hotp]
            exact key1 _ _ _ _
          · rw [if_neg hotp]
            by_cases hh : hexEncodeUpper (crypto.hash (strBytes (otp.pin ++ sv ++ otp.passphrase))) = oav
            · rw [if_pos hh]
              by_cases hdn : otp.deviceName ≠ ""
              · rw [if_pos hdn]
                exact key2 _ _ _ _ _
              · rw [if_neg hdn]
                exact key1 _ _ _ _
            · rw [if_neg hh]
              exact key1 _ _ _ _
        | none =>
          simp only [phase1Fn]
          by_cases hps : cfg.pinStdin = true
          · rw [if_pos hps]
            exact key1 _ _ _ _
          · rw [if_neg hps]
            exact key3 _ _ _

theorem clientpairingsecretFn_keys_nodup (crypto : CryptoModel) (fresh : Bool)
    (fu : String) (m : SessMap) (store : List NamedCert) (s : PairSession)
    (payload : String) (h : (mapKeys m).Nodup) :
    (mapKeys (clientpairingsecretFn crypto fresh fu m store s payload).map).Nodup := by
  unfold clientpairingsecretFn
  by_cases hl : (hexDecode payload).length ≤ 16
  · rw [if_pos hl]
    exact h
  · rw [if_neg hl]
    by_cases hacc : (s.clienthash.take (crypto.hash (s.serverchallenge ++
        crypto.signature s.client.cert ++ (hexDecode payload).take 16)).length =
          crypto.hash (s.serverchallenge ++ crypto.signature s.client.cert ++
            (hexDecode payload).take 16) ∧
        crypto.verify256 s.client.cert ((hexDecode payload).take 16)
          ((hexDecode payload).drop 16) = true)
    · rw [if_pos hacc]
      exact nodup_keys_erase _ _ h
    · rw [if_neg hacc]
      exact nodup_keys_erase _ _ h

theorem pair_outcome_keys_nodup (crypto : CryptoModel) (cfg : PairConfig)
    (sc pk : List Nat) (otp : OtpGlobals) (rp sp fu : String)
    (ra rb : List Nat) (m : SessMap) (store : List NamedCert) (a : PairArgs)
    (h : (mapKeys m).Nodup) :
    (mapKeys (outcomeMap (pair crypto cfg sc pk otp rp sp fu ra rb m store a))).Nodup := by
  unfold pair
  repeat' split
  all_goals first
    | exact phase1Fn_keys_nodup _ _ _ _ _ _ _ _ _ _ h
    | exact clientpairingsecretFn_keys_nodup _ _ _ _ _ _ _ h
    | simpa [outcomeMap, mapKeys_update] using h
    | simp [outcomeMap, mapKeys]

theorem phase1Fn_keeps_existing (crypto : CryptoModel) (cfg : PairConfig)
    (sc : List Nat) (otp : OtpGlobals) (rp sp : String) (m : SessMap)
    (store : List NamedCert) (uid dn cc salt : String) (s0 : PairSession)
    (hfound : mapFind m uid = some s0) :
    ∃ s1, mapFind (phase1Fn crypto cfg sc otp rp sp m store uid
        { uniqueid := some uid, phrase := some "getservercert", devicename := some dn,
          clientcert := some cc, salt := some salt }).map uid = some s1 ∧
      s1.client = s0.client ∧ s1.asyncSalt = salt := by
  simp only [phase1Fn]
  rw [mapEmplace_of_find_some uid _ s0 m hfound]
  have hfind2 : mapFind (mapUpdate uid (fun s => { s with asyncSalt := salt }) m) uid =
      some { s0 with asyncSalt := salt } := by
    rw [mapFind_update_self, hfound]
    rfl
  by_cases hps : cfg.pinStdin = true
  · rw [if_pos hps]
    refine ⟨(getservercert crypto sc { s0 with asyncSalt := salt } {} sp).1, ?_, ?_, ?_⟩
    · show mapFind (applyGetservercert crypto sc sp uid {}
          (mapUpdate uid (fun s => { s with asyncSalt := salt }) m)).1 uid = _
      unfold applyGetservercert
      rw [hfind2]
      show mapFind (mapUpdate uid _ (mapUpdate uid (fun s => { s with asyncSalt := salt }) m)) uid = _
      rw [mapFind_update_self, hfind2]
      rfl
    · rw [getservercert_fst_client]
    · rw [getservercert_fst_asyncSalt]
  · rw [if_neg hps]
    refine ⟨{ s0 with asyncSalt := salt, asyncResponse := true }, ?_, rfl, rfl⟩
    show mapFind (mapUpdate uid (fun s => { s with asyncResponse := true })
        (mapUpdate uid (fun s => { s with asyncSalt := salt }) m)) uid = _
    rw [mapFind_update_self, hfind2]
    rfl

theorem pair_getservercert_reduces (crypto : CryptoModel) (cfg : PairConfig)
    (sc pk : List Nat) (otp : OtpGlobals) (rp sp fu : String) (ra rb : List Nat)
    (m : SessMap) (store : List NamedCert) (uid : String) (dn cc salt oa : Option String)
    (hen : cfg.enablePairing = true) :
    pair crypto cfg sc pk otp rp sp fu ra rb m store
      { uniqueid := some uid, phrase := some "getservercert", devicename := dn,
        clientcert := cc, salt := salt, otpauth := oa } =
    .ok (phase1Fn crypto cfg sc otp rp sp m store uid
      { uniqueid := some uid, phrase := some "getservercert", devicename := dn,
        clientcert := cc, salt := salt, otpauth := oa }) := by
  simp only [pair]
  rw [if_neg (by simp [hen])]
  simp

theorem pair_clientpairingsecret_reduces (crypto : CryptoModel) (cfg : PairConfig)
    (sc pk : List Nat) (otp : OtpGlobals) (rp sp fu : String) (ra rb : List Nat)
    (m : SessMap) (store : List NamedCert) (uid cps : String) (s : PairSession)
    (hen : cfg.enablePairing = true) (hfound : mapFind m uid = some s) :
    pair crypto cfg sc pk otp rp sp fu ra rb m store
      { uniqueid := some uid, clientpairingsecret := some cps } =
    .ok { tree := (clientpairingsecretFn crypto cfg.freshState fu m store s cps).tree,
          map := (clientpairingsecretFn crypto cfg.freshState fu m store s cps).map,
          store := (clientpairingsecretFn crypto cfg.freshState fu m store s cps).store,
          savedFile := (clientpairingsecretFn crypto cfg.freshState fu m store s cps).savedFile,
          otp := otp, responded := true, threw := false } := by
  simp only [pair]
  rw [if_neg (by simp [hen]), hfound]

/-- C2 (amended): every /pair request preserves the invariant that the
pairing map holds at most one entry per uniqueid; but a second
getservercert with an existing uniqueid does not replace the stored
PairingSession with a newly constructed one — the existing session keeps
its client (certificate and name) and only its pending salt (plus the
path-dependent derived fields) is updated. -/
theorem pair_session_map_invariant :
    (∀ (crypto : CryptoModel) (cfg : PairConfig) (sc pk : List Nat)
        (otp : OtpGlobals) (rp sp fu : String) (ra rb : List Nat)
        (m : SessMap) (store : List NamedCert) (a : PairArgs),
      (mapKeys m).Nodup →
      (mapKeys (outcomeMap (pair crypto cfg sc pk otp rp sp fu ra rb m store a))).Nodup) ∧
    (∀ (crypto : CryptoModel) (cfg : PairConfig) (sc pk : List Nat)
        (otp : OtpGlobals) (rp sp fu : String) (ra rb : List Nat)
        (m : SessMap) (store : List NamedCert) (uid dn cc salt : String) (s0 : PairSession),
      cfg.enablePairing = true → mapFind m uid = some s0 →
      ∃ s1, mapFind (outcomeMap (pair crypto cfg sc pk otp rp sp fu ra rb m store
          { uniqueid := some uid, phrase := some "getservercert", devicename := some dn,
            clientcert := some cc, salt := some salt })) uid = some s1 ∧
        s1.client = s0.client ∧ s1.asyncSalt = salt) := by
  constructor
  · intro crypto cfg sc pk otp rp sp fu ra rb m store a h
    exact pair_outcome_keys_nodup crypto cfg sc pk otp rp sp fu ra rb m store a h
  · intro crypto cfg sc pk otp rp sp fu ra rb m store uid dn cc salt s0 hen hfound
    rw [pair_getservercert_reduces crypto cfg sc pk otp rp sp fu ra rb m store uid
      (some dn) (some cc) (some salt) none hen]
    exact phase1Fn_keeps_existing crypto cfg sc otp rp sp m store uid dn cc salt s0 hfound

theorem pair_session_map_invariant_witness :
    (mapKeys (outcomeMap (pair cryptoZero cfgStdin [] [] otpNone "r" "1234" "fu" [] []
        [("u", sessNoHandle)] [] argsSecond))).Nodup ∧
    (∃ s1, mapFind (outcomeMap (pair cryptoZero cfgStdin [] [] otpNone "r" "1234" "fu" [] []
        [("u", sessNoHandle)] []
        { uniqueid := some "u", phrase := some "getservercert", devicename := some "B",
          clientcert := some "bb", salt := some salt32 })) "u" = some s1 ∧
      s1.client = sessNoHandle.client ∧ s1.asyncSalt = salt32) :=
  ⟨pair_session_map_invariant.1 cryptoZero cfgStdin [] [] otpNone "r" "1234" "fu" [] []
      [("u", sessNoHandle)] [] argsSecond (by decide),
   pair_session_map_invariant.2 cryptoZero cfgStdin [] [] otpNone "r" "1234" "fu" [] []
      [("u", sessNoHandle)] [] "u" "B" "bb" salt32 sessNoHandle rfl (by decide)⟩

/-- C2 (counterexample): after a first getservercert for uniqueid "u"
with certificate hex "aa" and name "A", a second getservercert for the
same uniqueid with certificate hex "bb" and name "B" leaves the stored
session holding the first request's certificate and name (only the salt,
and the stdin-path cipher key, were updated): the session was not
replaced by a newly constructed one. -/
theorem second_getservercert_does_not_replace :
    mapFind (outcomeMap (pair cryptoZero cfgStdin [] [] otpNone "r" "1234" "fu" [] []
        (outcomeMap (pair cryptoZero cfgStdin [] [] otpNone "r" "1234" "fu" [] [] [] [] argsFirst))
        [] argsSecond)) "u" =
      some { client := { uniqueID := "u", cert := hexDecode "aa", name := "A" },
             cipher_key := some (List.replicate 16 0),
             clienthash := [], serversecret := [], serverchallenge := [],
             asyncSalt := salt32, asyncResponse := false } ∧
    hexDecode "aa" ≠ hexDecode "bb" := by
  constructor
  · decide
  · decide

/-- C4 (code behaviour at the failing input): with a registered but
expired OTP, a getservercert carrying otpauth clears OTPState and puts
status 503 with "OTP auth not available." into the tree — but then falls
through into the key-derivation step, which overwrites the response with
paired=1 / status 200 and a cipher key derived from a random pin; only
the stale status_message survives.  The claimed 503 response is never
sent (same for an absent OTP). -/
theorem pair_otp_unavailable_responds_200 :
    outcomeTree (pair cryptoZero cfgAsync [] [] otpStale "rp" "sp" "fu" [] [] [] [] argsOtpStale) =
      { statusCode := some 200, statusMessage := some "OTP auth not available.",
        paired := some 1, plaincert := some (hexEncode []) } ∧
    outcomeOtp (pair cryptoZero cfgAsync [] [] otpStale "rp" "sp" "fu" [] [] [] [] argsOtpStale) =
      { pin := "", passphrase := "", deviceName := "", expired := true } := by
  constructor
  · decide
  · decide

/-- C6 (code behaviour at the failing inputs): a clientchallenge request
for a uniqueid with no pairing session, and one for a session whose
cipher_key was never derived, both drive the handler into undefined
behaviour (dereferencing the end iterator returned by map_id_sess.find,
resp. the null cipher_key unique_ptr), modelled as the crash outcome: the
handler does not terminate with a response. -/
theorem pair_clientchallenge_crash :
    pair cryptoZero cfgStdin [] [] otpNone "r" "p" "fu" [] [] [] [] argsChalGhost = .crash ∧
    pair cryptoZero cfgStdin [] [] otpNone "r" "p" "fu" [] [] [("g", sessNoKey)] [] argsChalNoKey = .crash := by
  constructor
  · decide
  · decide

/-- C1 (amended): for a phase-4 request whose decoded payload exceeds 16
bytes, split into a 16-byte secret and the remaining signature, and whose
session clienthash is at least digest length (shorter clienthash makes
the source memcmp read out of bounds): the pairing is accepted iff
SHA-256(serverchallenge || DER-signature-field(client cert) || secret)
equals the first digest-length bytes of session.clienthash — the code
compares memcmp over hash length, not the whole clienthash byte-for-byte
— and the RSA-SHA256 signature verifies over the secret under the client
certificate.  On acceptance a NamedCert with the fresh uuid, the
bracket-substituted client name and the client cert is appended, the
store is persisted and reloaded as its saved projection (unless
FRESH_STATE is set, in which case it is only appended), the session is
erased and the response is paired=1 status 200; on rejection the session
is erased, the store is untouched, and the response is paired=0 status
200. -/
theorem clientpairingsecret_contract (crypto : CryptoModel) (fresh : Bool)
    (fu : String) (m : SessMap) (store : List NamedCert) (s : PairSession)
    (payload : String)
    (hlen : 16 < (hexDecode payload).length)
    (_hch : (crypto.hash (s.serverchallenge ++ crypto.signature s.client.cert ++
        (hexDecode payload).take 16)).length ≤ s.clienthash.length) :
    ((s.clienthash.take (crypto.hash (s.serverchallenge ++ crypto.signature s.client.cert ++
          (hexDecode payload).take 16)).length =
        crypto.hash (s.serverchallenge ++ crypto.signature s.client.cert ++
          (hexDecode payload).take 16) ∧
      crypto.verify256 s.client.cert ((hexDecode payload).take 16)
          ((hexDecode payload).drop 16) = true) →
      clientpairingsecretFn crypto fresh fu m store s payload =
        { tree := { paired := some 1, statusCode := some 200 },
          map := mapErase s.client.uniqueID m,
          store := (if fresh then store ++ [⟨fu, bracketSub s.client.name, s.client.cert⟩]
                    else save_state (store ++ [⟨fu, bracketSub s.client.name, s.client.cert⟩])),
          savedFile := (if fresh then none
                        else some (save_state (store ++ [⟨fu, bracketSub s.client.name, s.client.cert⟩]))) }) ∧
    (¬(s.clienthash.take (crypto.hash (s.serverchallenge ++ crypto.signature s.client.cert ++
          (hexDecode payload).take 16)).length =
        crypto.hash (s.serverchallenge ++ crypto.signature s.client.cert ++
          (hexDecode payload).take 16) ∧
      crypto.verify256 s.client.cert ((hexDecode payload).take 16)
          ((hexDecode payload).drop 16) = true) →
      clientpairingsecretFn crypto fresh fu m store s payload =
        { tree := { paired := some 0, statusCode := some 200 },
          map := mapErase s.client.uniqueID m, store := store, savedFile := none }) := by
  constructor
  · intro hacc
    simp only [clientpairingsecretFn]
    rw [if_neg (by omega), if_pos hacc]
    simp only [add_authorized_client]
    cases fresh <;> rfl
  · intro hrej
    simp only [clientpairingsecretFn]
    rw [if_neg (by omega), if_neg hrej]

theorem clientpairingsecret_contract_witness :
    clientpairingsecretFn cryptoZero false "fu" [("u", sessExactHash)] [] sessExactHash payload17 =
      { tree := { paired := some 1, statusCode := some 200 },
        map := mapErase sessExactHash.client.uniqueID [("u", sessExactHash)],
        store := save_state ([] ++ [⟨"fu", bracketSub sessExactHash.client.name, sessExactHash.client.cert⟩]),
        savedFile := some (save_state ([] ++ [⟨"fu", bracketSub sessExactHash.client.name, sessExactHash.client.cert⟩])) } :=
  (clientpairingsecret_contract cryptoZero false "fu" [("u", sessExactHash)] [] sessExactHash
    payload17 (by decide) (by decide)).1 (by decide)

/-- C1 (counterexample): with a 48-byte clienthash whose first 32 bytes
equal the expected digest, the phase-4 request is accepted (paired=1)
although the digest does not equal session.clienthash byte-for-byte: the
code only compares memcmp over the digest length, so the claimed
acceptance condition, as stated, fails. -/
theorem clientpairingsecret_prefix_match_cex :
    (clientpairingsecretFn cryptoZero false "id1" [("u", sessLongHash)] []
        sessLongHash payload17).tree.paired = some 1 ∧
    cryptoZero.hash (sessLongHash.serverchallenge ++
        cryptoZero.signature sessLongHash.client.cert ++
        (hexDecode payload17).take 16) ≠ sessLongHash.clienthash := by
  constructor
  · decide
  · decide

theorem applyGetservercert_eq_of_find (crypto : CryptoModel) (sc : List Nat)
    (p uid : String) (t : XmlTree) (m : SessMap) (s : PairSession)
    (hf : mapFind m uid = some s) :
    applyGetservercert crypto sc p uid t m =
      (mapUpdate uid (fun _ => (getservercert crypto sc s t p).1) m,
       (getservercert crypto sc s t p).2) := by
  unfold applyGetservercert
  rw [hf]

/-- C5 (amended): with pairing enabled — a phase-4 request with a live
session whose decoded clientpairingsecret is at most 16 bytes is answered
400 "Clientpairingsecret too short" with the map and store unchanged; but
the phase-1 malformed cases do not behave as claimed: a missing
devicename or clientcert aborts the handler by a get_arg exception, so no
400 status is ever written (the map is unchanged); a missing salt aborts
the same way after the new session has already been emplaced; and a
stdin-path request whose salt is shorter than 32 characters is answered
400 "Salt too short" while the newly inserted session remains in the
map. -/
theorem pair_malformed_handling (crypto : CryptoModel) (cfg : PairConfig)
    (sc pk : List Nat) (otp : OtpGlobals) (rp sp fu : String) (ra rb : List Nat)
    (m : SessMap) (store : List NamedCert) (hen : cfg.enablePairing = true) :
    (∀ uid cc salt oa, pair crypto cfg sc pk otp rp sp fu ra rb m store
        { uniqueid := some uid, phrase := some "getservercert", devicename := none,
          clientcert := cc, salt := salt, otpauth := oa } =
      .ok { tree := {}, map := m, store := store, savedFile := none, otp := otp,
            responded := true, threw := true }) ∧
    (∀ uid dn salt oa, pair crypto cfg sc pk otp rp sp fu ra rb m store
        { uniqueid := some uid, phrase := some "getservercert", devicename := some dn,
          clientcert := none, salt := salt, otpauth := oa } =
      .ok { tree := {}, map := m, store := store, savedFile := none, otp := otp,
            responded := true, threw := true }) ∧
    (∀ uid dn cc oa, pair crypto cfg sc pk otp rp sp fu ra rb m store
        { uniqueid := some uid, phrase := some "getservercert", devicename := some dn,
          clientcert := some cc, salt := none, otpauth := oa } =
      .ok { tree := {},
            map := mapEmplace uid { client := { uniqueID := uid, cert := hexDecode cc, name := if dn = "roth" then "Legacy Moonlight Client" else dn } } m,
            store := store, savedFile := none, otp := otp,
            responded := true, threw := true }) ∧
    (∀ uid dn cc salt, cfg.pinStdin = true → salt.length < 32 →
      ∃ r, pair crypto cfg sc pk otp rp sp fu ra rb m store
          { uniqueid := some uid, phrase := some "getservercert", devicename := some dn,
            clientcert := some cc, salt := some salt } = .ok r ∧
        r.tree = { statusCode := some 400, statusMessage := some "Salt too short",
                   paired := some 0 } ∧
        r.store = store ∧ r.savedFile = none ∧
        ∃ s1, mapFind r.map uid = some s1 ∧ s1.asyncSalt = salt) ∧
    (∀ uid cps s, mapFind m uid = some s → (hexDecode cps).length ≤ 16 →
      pair crypto cfg sc pk otp rp sp fu ra rb m store
        { uniqueid := some uid, clientpairingsecret := some cps } =
      .ok { tree := { statusCode := some 400,
                      statusMessage := some "Clientpairingsecret too short",
                      paired := some 0 },
            map := m, store := store, savedFile := none, otp := otp,
            responded := true, threw := false }) := by
  refine ⟨?_, ?_, ?_, ?_, ?_⟩
  · intro uid cc salt oa
    rw [pair_getservercert_reduces crypto cfg sc pk otp rp sp fu ra rb m store uid
      none cc salt oa hen]
    rfl
  · intro uid dn salt oa
    rw [pair_getservercert_reduces crypto cfg sc pk otp rp sp fu ra rb m store uid
      (some dn) none salt oa hen]
    rfl
  · intro uid dn cc oa
    rw [pair_getservercert_reduces crypto cfg sc pk otp rp sp fu ra rb m store uid
      (some dn) (some cc) none oa hen]
    rfl
  · intro uid dn cc salt hps hsalt
    rw [pair_getservercert_reduces crypto cfg sc pk otp rp sp fu ra rb m store uid
      (some dn) (some cc) (some salt) none hen]
    simp only [phase1Fn]
    rw [if_pos hps]
    have hfind2 : mapFind (mapUpdate uid (fun x => { x with asyncSalt := salt }) (mapEmplace uid { client := { uniqueID := uid, cert := hexDecode cc, name := if dn = "roth" then "Legacy Moonlight Client" else dn } } m)) uid = some { ((mapFind m uid).getD { client := { uniqueID := uid, cert := hexDecode cc, name := if dn = "roth" then "Legacy Moonlight Client" else dn } }) with asyncSalt := salt } := by
      rw [mapFind_update_self, mapFind_emplace]
      rfl
    have hgs : getservercert crypto sc { ((mapFind m uid).getD { client := { uniqueID := uid, cert := hexDecode cc, name := if dn = "roth" then "Legacy Moonlight Client" else dn } }) with asyncSalt := salt } {} sp = ({ ((mapFind m uid).getD { client := { uniqueID := uid, cert := hexDecode cc, name := if dn = "roth" then "Legacy Moonlight Client" else dn } }) with asyncSalt := salt }, { statusCode := some 400, statusMessage := some "Salt too short", paired := some 0 }) := by
      unfold getservercert
      dsimp only
      rw [if_pos hsalt]
    rw [applyGetservercert_eq_of_find crypto sc sp uid {} _ _ hfind2, hgs]
    refine ⟨_, rfl, rfl, rfl, rfl, ?_⟩
    refine ⟨{ ((mapFind m uid).getD { client := { uniqueID := uid, cert := hexDecode cc, name := if dn = "roth" then "Legacy Moonlight Client" else dn } }) with asyncSalt := salt }, ?_, rfl⟩
    rw [mapFind_update_self, hfind2]
    rfl
  · intro uid cps s hfound hshortlen
    rw [pair_clientpairingsecret_reduces crypto cfg sc pk otp rp sp fu ra rb m store uid
      cps s hen hfound]
    have hshort : clientpairingsecretFn crypto cfg.freshState fu m store s cps =
        { tree := { statusCode := some 400,
                    statusMessage := some "Clientpairingsecret too short",
                    paired := some 0 },
          map := m, store := store, savedFile := none } := by
      simp only [clientpairingsecretFn]
      rw [if_pos hshortlen]
    rw [hshort]

theorem pair_malformed_handling_witness :
    (pair cryptoZero cfgStdin [] [] otpNone "r" "1234" "fu" [] [] [("u", sessExactHash)] []
        { uniqueid := some "u", clientpairingsecret := some "00" } =
      .ok { tree := { statusCode := some 400,
                      statusMessage := some "Clientpairingsecret too short",
                      paired := some 0 },
            map := [("u", sessExactHash)], store := [], savedFile := none, otp := otpNone,
            responded := true, threw := false }) ∧
    (∃ r, pair cryptoZero cfgStdin [] [] otpNone "r" "1234" "fu" [] [] [] []
        { uniqueid := some "u", phrase := some "getservercert", devicename := some "A",
          clientcert := some "aa", salt := some "00" } = .ok r ∧
      r.tree = { statusCode := some 400, statusMessage := some "Salt too short",
                 paired := some 0 } ∧
      r.store = [] ∧ r.savedFile = none ∧
      ∃ s1, mapFind r.map "u" = some s1 ∧ s1.asyncSalt = "00") :=
  ⟨(pair_malformed_handling cryptoZero cfgStdin [] [] otpNone "r" "1234" "fu" [] []
      [("u", sessExactHash)] [] rfl).2.2.2.2 "u" "00" sessExactHash (by decide) (by decide),
   (pair_malformed_handling cryptoZero cfgStdin [] [] otpNone "r" "1234" "fu" [] [] [] [] rfl).2.2.2.1
      "u" "A" "aa" "00" rfl (by decide)⟩

/-- C5 (counterexample): a stdin-path getservercert with a 2-character
salt is answered 400 "Salt too short", yet the pairing-session map has
been mutated: the newly created session is still stored.  The claim that
malformed requests do not mutate any state fails. -/
theorem pair_short_salt_mutates_state :
    outcomeTree (pair cryptoZero cfgStdin [] [] otpNone "r" "1234" "fu" [] [] [] [] argsShortSalt) =
      { statusCode := some 400, statusMessage := some "Salt too short", paired := some 0 } ∧
    outcomeMap (pair cryptoZero cfgStdin [] [] otpNone "r" "1234" "fu" [] [] [] [] argsShortSalt) ≠ [] := by
  constructor
  · decide
  · decide
